import Mathlib

/-!
Verification of the Document Assembly Engine of the PPT_Maker repository.

The Python sources `step3_pptx_new.py` and `generate_ppt_from_pdf.py` are
shallowly embedded below.  Python strings are modelled as `List Char`
(`PyStr`); Python `None`-able values as `Option`; dictionary fields that the
code reads with `.get` as `Option` fields (with `getD` for defaults); code
that can raise an exception (`table_data['rows']` on a missing key) returns
`Except String _`.  ASCII character classes (`Char.isDigit`, `Char.isAlpha`,
`Char.isWhitespace`, `Char.toLower`) stand for the corresponding Python
`str` methods; the strings this program manipulates are ASCII.
-/

/-- Python strings, modelled as lists of characters. -/
abbrev PyStr := List Char

/-- Coerce a Lean string literal into the `PyStr` model. -/
def pys (s : String) : PyStr := s.toList

/-- Python `str.lstrip()`: drop leading whitespace. -/
def pyStripLeft (s : PyStr) : PyStr := s.dropWhile Char.isWhitespace

/-- Python `str.rstrip()`: drop trailing whitespace. -/
def pyStripRight : PyStr → PyStr
  | [] => []
  | a :: l =>
    match pyStripRight l with
    | [] => if a.isWhitespace then [] else [a]
    | b :: r => a :: b :: r

/-- Python `str.strip()`: drop leading and trailing whitespace. -/
def pyStrip (s : PyStr) : PyStr := pyStripRight (pyStripLeft s)

/-- Python `str.lower()` (ASCII). -/
def lowerStr (s : PyStr) : PyStr := s.map Char.toLower

/-- Python `text.split('\n')`: split at every newline, keeping empty pieces;
the result always has (number of newlines + 1) elements. -/
def splitLines : PyStr → List PyStr
  | [] => [[]]
  | c :: rest =>
    if c = '\n' then [] :: splitLines rest
    else
      match splitLines rest with
      | [] => [[c]]
      | l :: ls => (c :: l) :: ls

/-- Longest digit span: `spanDigits cs = (digits, rest)` where `digits` is the
maximal digit-only paragraph-initial span, mirroring the
`while num_end < len and s[num_end].isdigit(): num_end += 1` loop of
`add_text_box` (step3_pptx_new.py lines 166-177). -/
def spanDigits : PyStr → PyStr × PyStr
  | [] => ([], [])
  | c :: rest =>
    if c.isDigit then
      match spanDigits rest with
      | (ds, r) => (c :: ds, r)
    else ([], c :: rest)

/-- One styled text run inside a paragraph (text, bold flag). Font name,
size and color are constants in the source and are omitted. -/
structure TextRun where
  text : PyStr
  bold : Bool
deriving DecidableEq, Repr

/-- One paragraph: its runs and the `space_after` value in points
(`Pt(8)` for all but the last paragraph of a box, `Pt(0)` for the last). -/
structure Paragraph where
  runs : List TextRun
  spaceAfter : Nat
deriving DecidableEq, Repr

/-- `PPTXGenerator.add_text_box`, per-line part (step3_pptx_new.py lines
156-216): recognize `Q<digits>`/`Ans<digits>` labels, normalize the
separator, emit a bold label run plus an optional body run; other lines
become a single run (a single space when the line is blank). -/
def lineRuns (line : PyStr) (bold : Bool) : List TextRun :=
  let s := pyStrip line
  let isNumQ : Bool :=
    match s with
    | c :: d :: _ => decide (c = 'Q') && d.isDigit
    | _ => false
  let isNumAns : Bool :=
    match s with
    | a :: n :: s3 :: d :: _ =>
      decide (a = 'A') && decide (n = 'n') && decide (s3 = 's') && d.isDigit
    | _ => false
  if isNumQ || isNumAns then
    let parts :=
      if isNumQ then
        match s with
        | c :: t => ([c] ++ (spanDigits t).1, (spanDigits t).2)
        | [] => ([], [])
      else
        match s with
        | a :: n :: s3 :: t => ([a, n, s3] ++ (spanDigits t).1, (spanDigits t).2)
        | _ => ([], [])
    let number_part := parts.1
    let rest := pyStrip parts.2
    let tpsep :=
      match rest with
      | r0 :: _ =>
        if r0 = '.' then
          -- rest.lstrip('.').lstrip().strip()
          let tp := pyStrip (rest.dropWhile (· = '.'))
          (tp, if tp = [] then pys "." else pys ". ")
        else if r0 = ' ' then
          -- dead in practice: `rest` is already stripped, kept for fidelity
          (pyStripLeft rest, pys ". ")
        else (rest, pys ". ")
      | [] => (rest, pys ". ")
    let text_part := tpsep.1
    let separator := tpsep.2
    [⟨number_part ++ separator, true⟩] ++
      (if text_part = [] then [] else [⟨text_part, bold⟩])
  else
    [⟨(if pyStrip line = [] then pys " " else line), bold⟩]

/-- `PPTXGenerator.add_text_box` (step3_pptx_new.py lines 142-216): one
paragraph per `'\n'`-separated line, trailing spacing on all but the last. -/
def addTextBox (text : PyStr) (bold : Bool) : List Paragraph :=
  let lines := splitLines text
  lines.enum.map (fun p =>
    { runs := lineRuns p.2 bold,
      spaceAfter := if p.1 < lines.length - 1 then 8 else 0 })

/-- A table cell value coming from JSON: `none` models Python `None`. -/
abbrev Cell := Option PyStr

/-- Python `str(x)` on a cell (used by the options-table heuristic,
step3_pptx_new.py line 381): `str(None)` is the string `"None"`. -/
def pyRepr : Cell → PyStr
  | none => pys "None"
  | some s => s

/-- Data-cell rendering (step3_pptx_new.py line 326):
`str(cell_text) if cell_text is not None else ""`. -/
def cellRender : Cell → PyStr
  | none => []
  | some s => s

/-- Header-cell rendering (step3_pptx_new.py line 305):
`str(header_text) if header_text else ""` (falsy header renders empty). -/
def headerRender : Cell → PyStr
  | none => []
  | some s => s

/-- `TableData`: the `table` dictionary.  `none` fields model missing keys
(`.get` returns `None`; `['rows']` raises `KeyError`). -/
structure TableData where
  headers : Option (List Cell) := none
  rows : Option (List (List Cell)) := none
deriving DecidableEq, Repr

/-- A rendered table: the texts written to the header row and to the data
cells (geometry, colors and fonts are constants and are omitted). -/
structure RTable where
  headerTexts : List PyStr
  rowTexts : List (List PyStr)
deriving DecidableEq, Repr

/-- Inner loop of `add_table` over one data row (step3_pptx_new.py lines
318-329): enumerate the cells and write only those with `col_idx < num_cols`. -/
def renderRowAux (numCols : Nat) : Nat → List Cell → List PyStr
  | _, [] => []
  | i, c :: rest =>
    if i < numCols then cellRender c :: renderRowAux numCols (i + 1) rest
    else renderRowAux numCols (i + 1) rest

/-- Rendering of one data row of `add_table`. -/
def renderRow (numCols : Nat) (row : List Cell) : List PyStr :=
  renderRowAux numCols 0 row

/-- `PPTXGenerator.add_table` (step3_pptx_new.py lines 253-331).
Returns `.ok none` when nothing is drawn (line 269-270), `.error` when the
Python code would raise (`table_data['rows']` with no `rows` key), and
`.ok (some _)` with the written cell texts otherwise. -/
def addTable (table_data : Option TableData) : Except String (Option RTable) :=
  match table_data with
  | none => .ok none
  | some t =>
    match t.headers with
    | none => .ok none
    | some [] => .ok none
    | some hs =>
      match t.rows with
      | none => .error "KeyError: rows"
      | some rows =>
        .ok (some { headerTexts := hs.map headerRender,
                    rowTexts := rows.map (renderRow hs.length) })

/-- `ContentBlock`: the `content` dictionary of a slide spec; every field is
read with `.get` in the source, hence `Option`. -/
structure ContentBlock where
  question_text : Option PyStr := none
  options : Option (List PyStr) := none
  table : Option TableData := none
  diagram_description : Option PyStr := none
  passage : Option PyStr := none
  answer_text : Option PyStr := none
deriving DecidableEq, Repr

/-- `has_table = table and table.get('headers')` (step3_pptx_new.py line 368),
as a boolean. -/
def hasTable (content : ContentBlock) : Bool :=
  match content.table with
  | some t =>
    match t.headers with
    | some (_ :: _) => true
    | _ => false
  | none => false

/-- One row of the options-table heuristic (step3_pptx_new.py lines 379-387):
the trimmed first cell must look like `(<letter>)` and equal, lowercased,
the first three characters of the trimmed option at the same index. -/
def rowMatch (options : List PyStr) (i : Nat) (row : List Cell) : Bool :=
  match row with
  | [] => false
  | c0 :: _ =>
    let first_cell := pyStrip (pyRepr c0)
    let shapeOk :=
      (match first_cell with
       | c :: x :: _ => decide (c = '(') && x.isAlpha
       | _ => false) &&
      decide (3 ≤ first_cell.length) &&
      (match first_cell.reverse with
       | c :: _ => decide (c = ')')
       | _ => false)
    if shapeOk then
      let opt := options.getD i []
      let option_label := if 3 ≤ opt.length then (pyStrip opt).take 3 else []
      decide (lowerStr first_cell = lowerStr option_label)
    else false

/-- Number of matching rows of the heuristic. -/
def countMatches (options : List PyStr) (rows : List (List Cell)) : Nat :=
  (rows.enum).countP (fun p => rowMatch options p.1 p.2)

/-- The `matches >= len(options) * 0.75` threshold with equal row/option
counts (step3_pptx_new.py lines 374-391).  `n * 0.75` is exact in floating
point, so the comparison is equivalent to `3 * n ≤ 4 * matches`. -/
def isOptionsTable (options : List PyStr) (t : TableData) : Bool :=
  let table_rows := t.rows.getD []
  if table_rows ≠ [] ∧ table_rows.length = options.length then
    decide (3 * options.length ≤ 4 * countMatches options table_rows)
  else false

/-- `is_options_table` as computed by `create_question_slide`
(step3_pptx_new.py lines 372-391): only checked when a table with headers
and a non-empty options list are both present. -/
def isOptionsTableFlag (content : ContentBlock) : Bool :=
  let options := content.options.getD []
  if hasTable content ∧ options ≠ [] then
    match content.table with
    | some t => isOptionsTable options t
    | none => false
  else false

/-- `show_table = has_table and not is_options_table`
(step3_pptx_new.py line 394). -/
def showTable (content : ContentBlock) : Bool :=
  hasTable content && !(isOptionsTableFlag content)

/-- The combined text block of a question slide (step3_pptx_new.py lines
348-364): `"{number}. {text}"`, then the newline-joined options when
non-empty, then a `"\n[Diagram]"` marker when a diagram description is
truthy, all joined with blank lines. -/
def questionFullText (content : ContentBlock) (qnum : PyStr) : PyStr :=
  let question_text := content.question_text.getD []
  let options := content.options.getD []
  let parts1 := [qnum ++ pys ". " ++ question_text]
  let parts2 := parts1 ++ (if options = [] then [] else [List.intercalate (pys "\n") options])
  let parts3 := parts2 ++
    (match content.diagram_description with
     | some d => if d = [] then [] else [pys "\n[Diagram]"]
     | none => [])
  List.intercalate (pys "\n\n") parts3

/-- One output slide, tagged by the builder that produced it
(`create_passage_slide` / `create_question_slide` / `create_answer_slide`). -/
inductive Slide where
  | passage (tf : List Paragraph)
  | question (tf : List Paragraph) (tbl : Option RTable)
  | answer (tf : List Paragraph)
deriving DecidableEq, Repr

/-- `PPTXGenerator.create_passage_slide` (step3_pptx_new.py lines 440-457). -/
def create_passage_slide (passage_text : PyStr) : Slide :=
  .passage (addTextBox passage_text false)

/-- The `f"Ans{self.answer_counter}"` label. -/
def ansLabel (n : Nat) : PyStr := pys "Ans" ++ (toString n).toList

/-- `PPTXGenerator.create_answer_slide` (step3_pptx_new.py lines 416-438):
builds `"Ans<counter>. <text>"` and increments the counter. -/
def create_answer_slide (answer_text : PyStr) (counter : Nat) : Slide × Nat :=
  (.answer (addTextBox (ansLabel counter ++ pys ". " ++ answer_text) false),
   counter + 1)

/-- `PPTXGenerator.create_question_slide` (step3_pptx_new.py lines 333-414):
one text box with the combined question text; the table is added only when
`show_table` holds, in which case a faulty `rows` key propagates the
`add_table` exception. -/
def create_question_slide (content : ContentBlock) (qnum : PyStr) :
    Except String Slide :=
  if showTable content then
    match addTable content.table with
    | .ok rt => .ok (.question (addTextBox (questionFullText content qnum) false) rt)
    | .error e => .error e
  else .ok (.question (addTextBox (questionFullText content qnum) false) none)

/-- A slide spec: `slide_type` and `content` are read with `.get`
(step3_pptx_new.py lines 479-480; a missing `content` defaults to `{}`). -/
structure SlideSpec where
  slide_type : Option PyStr := none
  content : ContentBlock := {}
deriving DecidableEq, Repr

/-- One question record: `question_number` defaults to `"Q?"`, `slides`
to `[]` (step3_pptx_new.py lines 474-475). -/
structure QuestionRecord where
  question_number : Option PyStr := none
  slides : List SlideSpec := []
deriving DecidableEq, Repr

/-- Dispatch of one slide spec (step3_pptx_new.py lines 478-494): passage,
question and answer go to their builders; an answer is skipped without a
counter increment when `include_answers` is false; any other `slide_type`
is dropped silently. -/
def processSlide (qnum : PyStr) (include_answers : Bool) (sd : SlideSpec)
    (counter : Nat) : Except String (List Slide × Nat) :=
  if sd.slide_type = some (pys "passage") then
    .ok ([create_passage_slide (sd.content.passage.getD [])], counter)
  else if sd.slide_type = some (pys "question") then
    match create_question_slide sd.content qnum with
    | .ok s => .ok ([s], counter)
    | .error e => .error e
  else if sd.slide_type = some (pys "answer") then
    if include_answers then
      let r := create_answer_slide (sd.content.answer_text.getD []) counter
      .ok ([r.1], r.2)
    else .ok ([], counter)
  else .ok ([], counter)

/-- The inner `for slide_data in slides` loop of `PPTXGenerator.generate`. -/
def processSlides (qnum : PyStr) (ia : Bool) :
    List SlideSpec → Nat → Except String (List Slide × Nat)
  | [], c => .ok ([], c)
  | sd :: rest, c =>
    match processSlide qnum ia sd c with
    | .error e => .error e
    | .ok (s1, c1) =>
      match processSlides qnum ia rest c1 with
      | .error e => .error e
      | .ok (s2, c2) => .ok (s1 ++ s2, c2)

/-- The outer `for q in questions` loop of `PPTXGenerator.generate`
(step3_pptx_new.py lines 472-494), threading the answer counter. -/
def generateFrom (ia : Bool) :
    List QuestionRecord → Nat → Except String (List Slide × Nat)
  | [], c => .ok ([], c)
  | q :: rest, c =>
    match processSlides (q.question_number.getD (pys "Q?")) ia q.slides c with
    | .error e => .error e
    | .ok (s1, c1) =>
      match generateFrom ia rest c1 with
      | .error e => .error e
      | .ok (s2, c2) => .ok (s1 ++ s2, c2)

/-- The mutable state of a `PPTXGenerator` instance: the in-progress
presentation and `answer_counter`. -/
structure GenState where
  slides : List Slide
  counter : Nat
deriving DecidableEq, Repr

/-- `PPTXGenerator.__init__` (step3_pptx_new.py lines 84-89): empty
presentation, counter 1. -/
def initialState : GenState := ⟨[], 1⟩

/-- `PPTXGenerator.generate` as an instance method: appends the produced
slides to the instance presentation and leaves the counter where the run
ended (the method never resets either). -/
def generateMethod (st : GenState) (questions : List QuestionRecord)
    (ia : Bool) : Except String GenState :=
  match generateFrom ia questions st.counter with
  | .error e => .error e
  | .ok (s, c) => .ok ⟨st.slides ++ s, c⟩

/-- One full generation run on a fresh `PPTXGenerator` (counter starts
at 1), returning the produced slide list. -/
def pptxGenerate (questions : List QuestionRecord) (ia : Bool) :
    Except String (List Slide) :=
  match generateFrom ia questions 1 with
  | .error e => .error e
  | .ok (s, _) => .ok s

/-- `get_unique_output_filename`'s `while True` loop
(generate_ppt_from_pdf.py lines 185-191): first free numeric suffix at or
after `counter`.  The fuel only bounds the search; it is chosen large
enough that a free suffix is always found before it runs out. -/
def findFree (taken : List Nat) : Nat → Nat → Nat
  | counter, 0 => counter
  | counter, fuel + 1 =>
    if counter ∈ taken then findFree taken (counter + 1) fuel else counter

/-- Largest suffix present (0 when none are). -/
def maxTaken (taken : List Nat) : Nat := taken.foldr max 0

/-- `get_unique_output_filename` (generate_ppt_from_pdf.py lines 164-191),
abstracted over the file system: `baseTaken` says whether `<base>.pptx`
exists and `taken` lists the numeric suffixes `n` for which
`<base>_<n>.pptx` exists.  `none` is the unsuffixed default path, `some n`
the path with suffix `n`. -/
def getUniqueOutputFilename (baseTaken : Bool) (taken : List Nat) : Option Nat :=
  if baseTaken then some (findFree taken 1 (maxTaken taken + 1)) else none

/-- Projection: the text frame of an answer slide, `none` for other slides. -/
def answerTF : Slide → Option (List Paragraph)
  | .answer tf => some tf
  | _ => none

/-- Projection: does a (question) slide carry a rendered table? -/
def slideHasTable : Slide → Bool
  | .question _ (some _) => true
  | _ => false

/-- The answer text a slide spec contributes when answers are included:
`some` exactly when the spec is answer-typed and `include_answers` holds. -/
def specAnswerText (ia : Bool) (sd : SlideSpec) : Option PyStr :=
  if ia = true ∧ sd.slide_type = some (pys "answer") then
    some (sd.content.answer_text.getD [])
  else none

/-- The answer texts a record list will emit, in order. -/
def answerTexts (ia : Bool) (records : List QuestionRecord) : List PyStr :=
  records.flatMap (fun r => r.slides.filterMap (specAnswerText ia))

/-- The expected answer text frames when the counter starts at `c`:
the i-th is labeled `Ans(c+i)`. -/
def labeledAnswers : Nat → List PyStr → List (List Paragraph)
  | _, [] => []
  | c, t :: ts =>
    addTextBox (ansLabel c ++ pys ". " ++ t) false :: labeledAnswers (c + 1) ts

/-- The three slide kinds, for stating dispatch/order properties. -/
inductive SlideTag where
  | passage
  | question
  | answer
deriving DecidableEq, Repr

/-- Which builder produced a slide. -/
def Slide.tag : Slide → SlideTag
  | .passage _ => .passage
  | .question _ _ => .question
  | .answer _ => .answer

/-- The tag a slide spec is dispatched to (`none` when it is skipped):
mirrors the `slide_type` if-chain of `generate`. -/
def specTag (ia : Bool) (sd : SlideSpec) : Option SlideTag :=
  if sd.slide_type = some (pys "passage") then some .passage
  else if sd.slide_type = some (pys "question") then some .question
  else if sd.slide_type = some (pys "answer") then
    if ia then some .answer else none
  else none

/-- Is a `slide_type` one of the three recognized kinds? -/
def knownSlideType (t : Option PyStr) : Bool :=
  t = some (pys "passage") || t = some (pys "question") || t = some (pys "answer")

/-- Row match as worded by the claim/spec (for C1): the trimmed first cell
has the shape `(` + one letter + `)` and equals, case-insensitively, the
first three characters of the option at the same index. -/
def claimRowMatchB (options : List PyStr) (i : Nat) (row : List Cell) : Bool :=
  match row with
  | [] => false
  | c0 :: _ =>
    let fc := pyStrip (pyRepr c0)
    decide (fc.length = 3) &&
    decide (fc.head? = some '(') &&
    (match fc.get? 1 with
     | some x => x.isAlpha
     | none => false) &&
    decide (fc.get? 2 = some ')') &&
    decide (lowerStr fc = lowerStr ((options.getD i []).take 3))

/-! ### Helper lemmas -/

lemma splitLines_ne_nil (cs : PyStr) : splitLines cs ≠ [] := by
  cases cs with
  | nil => simp [splitLines]
  | cons c rest =>
    simp only [splitLines]
    split
    · simp
    · split <;> simp

lemma splitLines_length (cs : PyStr) :
    (splitLines cs).length = cs.count '\n' + 1 := by
  induction cs with
  | nil => simp [splitLines]
  | cons c rest ih =>
    by_cases hc : c = '\n'
    · subst hc
      simp [splitLines, ih, List.count_cons]
    · cases hm : splitLines rest with
      | nil => exact absurd hm (splitLines_ne_nil rest)
      | cons l ls =>
        rw [hm] at ih
        simp only [splitLines, if_neg hc, hm, List.length_cons, List.count_cons]
        simp only [List.length_cons] at ih
        have hbeq : (c == '\n') = false := by
          simp [hc]
        simp [hbeq, ih]

lemma addTextBox_length (text : PyStr) (b : Bool) :
    (addTextBox text b).length = text.count '\n' + 1 := by
  simp [addTextBox, splitLines_length]

lemma addTextBox_runs (text : PyStr) (b : Bool) :
    (addTextBox text b).map Paragraph.runs =
      (splitLines text).map (fun l => lineRuns l b) := by
  unfold addTextBox
  rw [List.map_map]
  have hcomp : (Paragraph.runs ∘ fun (p : Nat × PyStr) =>
      ({ runs := lineRuns p.2 b,
         spaceAfter := if p.1 < (splitLines text).length - 1 then 8 else 0 } :
        Paragraph))
      = (fun l => lineRuns l b) ∘ Prod.snd := rfl
  rw [hcomp, ← List.map_map, List.enum_map_snd]

lemma lineRuns_blank (l : PyStr) (b : Bool) (h : pyStrip l = []) :
    lineRuns l b = [⟨pys " ", b⟩] := by
  simp [lineRuns, h]

/-- C6: for every text block, the text-box formatter emits one paragraph per
line (number of newline characters plus one), in original order with no
line dropped, and a blank (empty or whitespace-only) line becomes a
paragraph with a single run containing one space. -/
theorem claim_C6 (text : PyStr) (b : Bool) :
    (addTextBox text b).length = text.count '\n' + 1 ∧
    (addTextBox text b).map Paragraph.runs =
      (splitLines text).map (fun l => lineRuns l b) ∧
    ∀ l ∈ splitLines text, pyStrip l = [] → lineRuns l b = [⟨pys " ", b⟩] :=
  ⟨addTextBox_length text b, addTextBox_runs text b,
   fun l _ h => lineRuns_blank l b h⟩

theorem claim_C6_witness :
    (addTextBox (pys "a\n \nb") false).length = 3 ∧
    (addTextBox (pys "a\n \nb") false).map Paragraph.runs =
      [[⟨pys "a", false⟩], [⟨pys " ", false⟩], [⟨pys "b", false⟩]] := by
  have h := claim_C6 (pys "a\n \nb") false
  exact ⟨by rw [h.1]; decide, by rw [h.2.1]; decide⟩

/-- C7: a missing table, or a table whose `headers` entry is absent or the
empty list, makes the renderer emit nothing: `add_table` returns having
created no shape and raising no fault. -/
theorem claim_C7 :
    addTable none = .ok none ∧
    ∀ t : TableData, t.headers = none ∨ t.headers = some [] →
      addTable (some t) = .ok none := by
  refine ⟨rfl, ?_⟩
  intro t h
  rcases h with h | h <;> simp [addTable, h]

theorem claim_C7_witness :
    addTable (some { headers := some [],
                     rows := some [[some (pys "x")]] }) = .ok none :=
  claim_C7.2 _ (Or.inr rfl)

lemma renderRowAux_eq_take (n : Nat) (row : List Cell) :
    ∀ i, renderRowAux n i row = (row.take (n - i)).map cellRender := by
  induction row with
  | nil => intro i; simp [renderRowAux]
  | cons c rest ih =>
    intro i
    by_cases hi : i < n
    · have hn : n - i = (n - (i + 1)) + 1 := by omega
      simp [renderRowAux, hi, ih (i + 1), hn]
    · have hn : n - i = 0 := by omega
      have hn1 : n - (i + 1) = 0 := by omega
      simp [renderRowAux, hi, ih (i + 1), hn, hn1]

lemma renderRow_eq_take (n : Nat) (row : List Cell) :
    renderRow n row = (row.take n).map cellRender := by
  have h := renderRowAux_eq_take n row 0
  simpa [renderRow] using h

/-- C8: for every rendered table, each data row is written by truncation to
the first `len(headers)` cells — excess cells are dropped silently, the
renderer returns normally (no fault, no out-of-bounds access), and a `None`
cell renders as the empty string. -/
theorem claim_C8 (t : TableData) (hs : List Cell) (rows : List (List Cell))
    (hh : t.headers = some hs) (hne : hs ≠ []) (hr : t.rows = some rows) :
    addTable (some t) =
      .ok (some { headerTexts := hs.map headerRender,
                  rowTexts := rows.map (fun r => (r.take hs.length).map cellRender) }) ∧
    (∀ r ∈ rows, hs.length < r.length →
      ((r.take hs.length).map cellRender).length = hs.length) ∧
    cellRender none = [] := by
  refine ⟨?_, ?_, rfl⟩
  · rcases hs with _ | ⟨h0, hs'⟩
    · exact absurd rfl hne
    · simp only [addTable, hh, hr]
      simp [renderRow_eq_take]
  · intro r _ hlen
    simp [List.length_take]
    omega

theorem claim_C8_witness :
    addTable (some { headers := some [some (pys "H1"), some (pys "H2")],
                     rows := some [[some (pys "a"), none, some (pys "extra")]] }) =
      .ok (some { headerTexts := [pys "H1", pys "H2"],
                  rowTexts := [[pys "a", []]] }) := by
  have h := claim_C8
    { headers := some [some (pys "H1"), some (pys "H2")],
      rows := some [[some (pys "a"), none, some (pys "extra")]] }
    [some (pys "H1"), some (pys "H2")]
    [[some (pys "a"), none, some (pys "extra")]]
    rfl (by decide) rfl
  rw [h.1]
  exact rfl

lemma mem_le_maxTaken (taken : List Nat) : ∀ m ∈ taken, m ≤ maxTaken taken := by
  induction taken with
  | nil => intro m hm; simp at hm
  | cons a l ih =>
    intro m hm
    simp only [maxTaken, List.foldr_cons] at *
    rcases List.mem_cons.mp hm with h | h
    · exact h ▸ Nat.le_max_left _ _
    · exact Nat.le_trans (ih m h) (Nat.le_max_right _ _)

lemma findFree_spec (taken : List Nat) (fuel : Nat) :
    ∀ start : Nat, (∃ n, start ≤ n ∧ n < start + fuel ∧ n ∉ taken) →
      start ≤ findFree taken start fuel ∧
      findFree taken start fuel ∉ taken ∧
      ∀ m, start ≤ m → m < findFree taken start fuel → m ∈ taken := by
  induction fuel with
  | zero =>
    intro start h
    obtain ⟨n, h1, h2, _⟩ := h
    omega
  | succ fuel ih =>
    intro start hex
    by_cases hmem : start ∈ taken
    · have heq : findFree taken start (fuel + 1) = findFree taken (start + 1) fuel := by
        simp [findFree, hmem]
      obtain ⟨n, h1, h2, h3⟩ := hex
      have hne : n ≠ start := fun he => h3 (he ▸ hmem)
      have hrec := ih (start + 1) ⟨n, by omega, by omega, h3⟩
      rw [heq]
      refine ⟨by omega, hrec.2.1, ?_⟩
      intro m hm1 hm2
      rcases Nat.eq_or_lt_of_le hm1 with he | hl
      · exact he ▸ hmem
      · exact hrec.2.2 m (by omega) hm2
    · have heq : findFree taken start (fuel + 1) = start := by
        simp [findFree, hmem]
      rw [heq]
      exact ⟨Nat.le_refl _, hmem, fun m hm1 hm2 => by omega⟩

/-- C2 (corrected): when the default path is free the assembler uses it;
when it is taken, the chosen numeric suffix is the *smallest* positive
suffix not already present (so, contrary to the claim, it can be lower
than an existing suffix when the numbering has gaps), and the chosen path
is never one at which a file already exists. -/
theorem claim_C2_amended (taken : List Nat) (bt : Bool) :
    (bt = false → getUniqueOutputFilename bt taken = none) ∧
    (bt = true → ∃ n, getUniqueOutputFilename bt taken = some n ∧
      1 ≤ n ∧ n ∉ taken ∧ ∀ m, 1 ≤ m → m < n → m ∈ taken) := by
  constructor
  · intro h; simp [getUniqueOutputFilename, h]
  · intro h
    subst h
    refine ⟨findFree taken 1 (maxTaken taken + 1), by simp [getUniqueOutputFilename], ?_⟩
    have hex : ∃ n, 1 ≤ n ∧ n < 1 + (maxTaken taken + 1) ∧ n ∉ taken := by
      refine ⟨maxTaken taken + 1, by omega, by omega, fun hmem => ?_⟩
      have := mem_le_maxTaken taken _ hmem
      omega
    have h := findFree_spec taken (maxTaken taken + 1) 1 hex
    exact ⟨h.1, h.2.1, h.2.2⟩

/-- C2 counterexample: with the base name taken and suffix 2 present (but
suffix 1 absent), the code chooses suffix 1, which is *not* strictly higher
than the already-present suffix 2 — refuting the claim as stated. -/
theorem claim_C2_cex :
    getUniqueOutputFilename true [2] = some 1 ∧ ¬ 2 < 1 := by
  exact ⟨rfl, by omega⟩

theorem claim_C2_witness :
    ∃ n, getUniqueOutputFilename true [3, 4] = some n ∧
      1 ≤ n ∧ n ∉ [3, 4] ∧ ∀ m, 1 ≤ m → m < n → m ∈ [3, 4] :=
  (claim_C2_amended [3, 4] true).2 rfl

lemma spanDigits_append : ∀ (ds rest : PyStr),
    (∀ c ∈ ds, c.isDigit = true) →
    (∀ c, rest.head? = some c → c.isDigit = false) →
    spanDigits (ds ++ rest) = (ds, rest) := by
  intro ds
  induction ds with
  | nil =>
    intro rest _ hrest
    cases rest with
    | nil => rfl
    | cons r0 rtl =>
      have h0 := hrest r0 rfl
      simp [spanDigits, h0]
  | cons d dtl ih =>
    intro rest hds hrest
    have hd : d.isDigit = true := hds d (List.mem_cons_self _ _)
    simp only [List.cons_append, spanDigits, hd, if_true]
    simp [List.append_eq, ih rest (fun c hc => hds c (List.mem_cons_of_mem _ hc)) hrest]

lemma pyStripLeft_head_not_ws (s : PyStr) :
    ∀ c, (pyStripLeft s).head? = some c → c.isWhitespace = false := by
  induction s with
  | nil => intro c h; simp [pyStripLeft] at h
  | cons a l ih =>
    intro c h
    by_cases ha : a.isWhitespace = true
    · have he : pyStripLeft (a :: l) = pyStripLeft l := by
        simp [pyStripLeft, List.dropWhile_cons, ha]
      rw [he] at h
      exact ih c h
    · have he : pyStripLeft (a :: l) = a :: l := by
        simp [pyStripLeft, List.dropWhile_cons, ha]
      rw [he] at h
      simp only [List.head?_cons, Option.some.injEq] at h
      rw [← h]
      exact Bool.eq_false_iff.mpr ha

lemma pyStripRight_head_cases (s : PyStr) :
    pyStripRight s = [] ∨ (pyStripRight s).head? = s.head? := by
  cases s with
  | nil => exact Or.inl rfl
  | cons a l =>
    cases hl : pyStripRight l with
    | nil =>
      by_cases ha : a.isWhitespace = true
      · exact Or.inl (by simp [pyStripRight, hl, ha])
      · exact Or.inr (by simp [pyStripRight, hl, ha])
    | cons b r => exact Or.inr (by simp [pyStripRight, hl])

lemma pyStrip_head_not_ws (s : PyStr) :
    ∀ c, (pyStrip s).head? = some c → c.isWhitespace = false := by
  intro c h
  unfold pyStrip at h
  rcases pyStripRight_head_cases (pyStripLeft s) with he | he
  · rw [he] at h; simp at h
  · rw [he] at h
    exact pyStripLeft_head_not_ws s c h

/-- C3 (corrected): for every numbered-label line (trimmed form
`Q<digits>…` or `Ans<digits>…`), the first run is the label with the
canonical separator `". "` in bold, and the trimmed remainder (if any) is a
second run at the default weight — with the single exception forced by the
counterexample: when the remainder is empty after consuming its period(s),
the lone run is the label followed by `"."` with no trailing space. -/
theorem claim_C3_amended (line : PyStr) (b : Bool) (pre ds rest : PyStr)
    (hsplit : pyStrip line = pre ++ ds ++ rest)
    (hpre : pre = pys "Q" ∨ pre = pys "Ans")
    (hds : ds ≠ []) (hdig : ∀ c ∈ ds, c.isDigit = true)
    (hrest : ∀ c, rest.head? = some c → c.isDigit = false) :
    ((pyStrip rest).head? = some '.' →
      (pyStrip ((pyStrip rest).dropWhile (· = '.')) = [] →
        lineRuns line b = [⟨pre ++ ds ++ pys ".", true⟩]) ∧
      (pyStrip ((pyStrip rest).dropWhile (· = '.')) ≠ [] →
        lineRuns line b =
          [⟨pre ++ ds ++ pys ". ", true⟩,
           ⟨pyStrip ((pyStrip rest).dropWhile (· = '.')), b⟩])) ∧
    ((pyStrip rest).head? ≠ some '.' →
      (pyStrip rest = [] → lineRuns line b = [⟨pre ++ ds ++ pys ". ", true⟩]) ∧
      (pyStrip rest ≠ [] →
        lineRuns line b =
          [⟨pre ++ ds ++ pys ". ", true⟩, ⟨pyStrip rest, b⟩])) := by
  rcases ds with _ | ⟨d, dtl⟩
  · exact absurd rfl hds
  have hd : d.isDigit = true := hdig d (List.mem_cons_self _ _)
  have hspan : spanDigits (d :: (dtl ++ rest)) = (d :: dtl, rest) := by
    have h := spanDigits_append (d :: dtl) rest hdig hrest
    simpa [List.cons_append] using h
  rcases hpre with hpre | hpre <;> subst hpre
  · -- the Q-label case
    have hsplit' : pyStrip line = 'Q' :: d :: (dtl ++ rest) := by
      simpa [pys, List.cons_append] using hsplit
    constructor
    · intro hdothead
      obtain ⟨rtl, hdot⟩ : ∃ rtl, pyStrip rest = '.' :: rtl := by
        cases hpr : pyStrip rest with
        | nil => rw [hpr] at hdothead; simp at hdothead
        | cons a l =>
          rw [hpr] at hdothead
          simp only [List.head?_cons, Option.some.injEq] at hdothead
          exact ⟨l, by rw [hdothead]⟩
      constructor
      · intro htp
        rw [hdot] at htp
        have htp' : pyStrip (rtl.dropWhile (· = '.')) = [] := by
          simpa using htp
        unfold lineRuns
        rw [hsplit']
        simp [hd, hspan, hdot, htp']
        try rfl
      · intro htp
        rw [hdot] at htp ⊢
        have htp' : pyStrip (rtl.dropWhile (· = '.')) ≠ [] := by
          simpa using htp
        unfold lineRuns
        rw [hsplit']
        simp [hd, hspan, hdot, htp']
        try rfl
    · intro hnothead
      constructor
      · intro hnil
        unfold lineRuns
        rw [hsplit']
        simp [hd, hspan, hnil]
        try rfl
      · intro hnnil
        obtain ⟨r0, rtl, hpr⟩ : ∃ r0 rtl, pyStrip rest = r0 :: rtl := by
          cases hpr : pyStrip rest with
          | nil => exact absurd hpr hnnil
          | cons a l => exact ⟨a, l, rfl⟩
        have hr0dot : r0 ≠ '.' := by
          intro he
          exact hnothead (by rw [hpr, he]; rfl)
        have hr0sp : r0 ≠ ' ' := by
          have hw := pyStrip_head_not_ws rest r0 (by rw [hpr]; rfl)
          intro he
          rw [he] at hw
          exact absurd hw (by decide)
        rw [hpr]
        unfold lineRuns
        rw [hsplit']
        simp [hd, hspan, hpr, hr0dot, hr0sp]
        try rfl
  · -- the Ans-label case
    have hsplit' : pyStrip line = 'A' :: 'n' :: 's' :: d :: (dtl ++ rest) := by
      simpa [pys, List.cons_append] using hsplit
    constructor
    · intro hdothead
      obtain ⟨rtl, hdot⟩ : ∃ rtl, pyStrip rest = '.' :: rtl := by
        cases hpr : pyStrip rest with
        | nil => rw [hpr] at hdothead; simp at hdothead
        | cons a l =>
          rw [hpr] at hdothead
          simp only [List.head?_cons, Option.some.injEq] at hdothead
          exact ⟨l, by rw [hdothead]⟩
      constructor
      · intro htp
        rw [hdot] at htp
        have htp' : pyStrip (rtl.dropWhile (· = '.')) = [] := by
          simpa using htp
        unfold lineRuns
        rw [hsplit']
        simp [hd, hspan, hdot, htp']
        try rfl
      · intro htp
        rw [hdot] at htp ⊢
        have htp' : pyStrip (rtl.dropWhile (· = '.')) ≠ [] := by
          simpa using htp
        unfold lineRuns
        rw [hsplit']
        simp [hd, hspan, hdot, htp']
        try rfl
    · intro hnothead
      constructor
      · intro hnil
        unfold lineRuns
        rw [hsplit']
        simp [hd, hspan, hnil]
        try rfl
      · intro hnnil
        obtain ⟨r0, rtl, hpr⟩ : ∃ r0 rtl, pyStrip rest = r0 :: rtl := by
          cases hpr : pyStrip rest with
          | nil => exact absurd hpr hnnil
          | cons a l => exact ⟨a, l, rfl⟩
        have hr0dot : r0 ≠ '.' := by
          intro he
          exact hnothead (by rw [hpr, he]; rfl)
        have hr0sp : r0 ≠ ' ' := by
          have hw := pyStrip_head_not_ws rest r0 (by rw [hpr]; rfl)
          intro he
          rw [he] at hw
          exact absurd hw (by decide)
        rw [hpr]
        unfold lineRuns
        rw [hsplit']
        simp [hd, hspan, hpr, hr0dot, hr0sp]
        try rfl

/-- C3 counterexample: the numbered-label line `"Q3."` (remainder empty
after consuming its period) renders as the single bold run `"Q3."` — the
separator is a bare period, not the canonical `". "` claimed. -/
theorem claim_C3_cex :
    lineRuns (pys "Q3.") false = [⟨pys "Q3.", true⟩] ∧
    pys "Q3." ≠ pys "Q3. " := by
  exact ⟨rfl, by decide⟩

theorem claim_C3_witness :
    lineRuns (pys "Q3 text") false =
      [⟨pys "Q3. ", true⟩, ⟨pys "text", false⟩] := by
  have h := claim_C3_amended (pys "Q3 text") false (pys "Q") [Char.ofNat 51]
    (pys " text") (by decide) (Or.inl rfl) (by decide) (by decide) (by decide)
  have h2 := h.2 (by decide) |>.2 (by decide)
  exact h2.trans (by decide)

lemma ws_toLower (c : Char) (h : c.isWhitespace = true) : c.toLower = c := by
  simp only [Char.isWhitespace, Bool.or_eq_true, decide_eq_true_eq] at h
  rcases h with ((h | h) | h) | h <;> subst h <;> decide

lemma toLower_not_ws (c w : Char) (h : c.toLower = w)
    (hw : w.isWhitespace = false) : c.isWhitespace = false := by
  cases hws : c.isWhitespace
  · rfl
  · exfalso
    have he := ws_toLower c hws
    rw [h] at he
    subst he
    rw [hws] at hw
    exact absurd hw (by decide)

lemma pyStripRight_cons_cons (a : Char) (l : PyStr) {x : Char} {r : PyStr}
    (h : pyStripRight l = x :: r) : pyStripRight (a :: l) = a :: x :: r := by
  simp [pyStripRight, h]

lemma pyStripRight_cons_not_ws (a : Char) (l : PyStr)
    (ha : a.isWhitespace = false) :
    pyStripRight (a :: l) = a :: pyStripRight l := by
  cases hl : pyStripRight l with
  | nil => simp [pyStripRight, hl, ha]
  | cons b r => simp [pyStripRight, hl]

lemma countP_mono_of_imp {α : Type} (p q : α → Bool) :
    ∀ l : List α, (∀ x ∈ l, p x = true → q x = true) →
      l.countP p ≤ l.countP q := by
  intro l
  induction l with
  | nil => intro _; simp
  | cons a l ih =>
    intro h
    rw [List.countP_cons, List.countP_cons]
    have hl := ih (fun x hx => h x (List.mem_cons_of_mem _ hx))
    by_cases hp : p a = true
    · have hq := h a (List.mem_cons_self _ _) hp
      simp only [hp, hq, if_true]
      omega
    · have hp' : p a = false := Bool.eq_false_iff.mpr hp
      simp only [hp', Bool.false_eq_true, if_false]
      by_cases hq : q a = true <;> simp only [hq] <;> omega

lemma claim_imp_rowMatch (opts : List PyStr) (i : Nat) (row : List Cell)
    (h : claimRowMatchB opts i row = true) : rowMatch opts i row = true := by
  cases row with
  | nil => simp [claimRowMatchB] at h
  | cons c0 rtl =>
    simp only [claimRowMatchB, Bool.and_eq_true, decide_eq_true_eq] at h
    obtain ⟨⟨⟨⟨hlen, hhead⟩, halpha⟩, hlast⟩, heq⟩ := h
    obtain ⟨a, b2, c, habc⟩ := List.length_eq_three.mp hlen
    rw [habc] at hhead halpha hlast heq
    simp only [List.head?_cons, Option.some.injEq] at hhead
    subst hhead
    have hc : c = ')' := by simpa using hlast
    subst hc
    have hb2 : b2.isAlpha = true := by simpa using halpha
    -- lengths of both sides of the case-insensitive equality
    have hlen3 : 3 ≤ (opts.getD i []).length := by
      have hl := congrArg List.length heq
      simp only [lowerStr, List.length_map, List.length_take, List.length_cons,
        List.length_nil] at hl
      omega
    rcases hgd : opts.getD i [] with _ | ⟨o1, _ | ⟨o2, _ | ⟨o3, orest⟩⟩⟩ <;>
      rw [hgd] at hlen3 <;> simp at hlen3
    rw [hgd] at heq
    -- componentwise consequences of the lowered equality
    have heq3 : lowerStr ['(', b2, ')'] = lowerStr [o1, o2, o3] := by
      simpa [lowerStr] using heq
    have ho1 : o1.toLower = '(' := by
      have := congrArg (fun l => l.head?) heq3
      simpa [lowerStr] using this.symm
    have ho3 : o3.toLower = ')' := by
      have := congrArg (fun l => l.get? 2) heq3
      simpa [lowerStr] using this.symm
    have hws1 : o1.isWhitespace = false := toLower_not_ws o1 '(' ho1 (by decide)
    have hws3 : o3.isWhitespace = false := toLower_not_ws o3 ')' ho3 (by decide)
    -- trimming the option leaves its first three characters untouched
    have hstrip : pyStrip (o1 :: o2 :: o3 :: orest) =
        o1 :: o2 :: o3 :: pyStripRight orest := by
      have hleft : pyStripLeft (o1 :: o2 :: o3 :: orest) =
          o1 :: o2 :: o3 :: orest := by
        simp [pyStripLeft, List.dropWhile_cons, hws1]
      have h3 : pyStripRight (o3 :: orest) = o3 :: pyStripRight orest :=
        pyStripRight_cons_not_ws o3 orest hws3
      have h2 : pyStripRight (o2 :: o3 :: orest) =
          o2 :: o3 :: pyStripRight orest :=
        pyStripRight_cons_cons o2 _ h3
      have h1 : pyStripRight (o1 :: o2 :: o3 :: orest) =
          o1 :: o2 :: o3 :: pyStripRight orest :=
        pyStripRight_cons_cons o1 _ h2
      simp [pyStrip, hleft, h1]
    -- assemble rowMatch
    simp only [rowMatch, habc, hgd]
    simp [hb2, hstrip, List.take, lowerStr]
    simpa [lowerStr] using heq3

/-- C1 (corrected): for a question slide with a non-empty options list and a
table with non-empty headers and rows, if the row count equals the option
count and at least 75% of the rows have a trimmed first cell of shape
`(<letter>)` equal, case-insensitively, to the first three characters of the
option at the same index, then the table is suppressed: `show_table` is
false and the built slide carries no table.  (The claim's concrete example
`options=["a) x","b) y"]` does not satisfy this premise — see the
counterexample — suppression fires for options labeled like `"(a) x"`.) -/
theorem claim_C1_amended (content : ContentBlock) (t : TableData)
    (hs : List Cell) (opts : List PyStr) (rows : List (List Cell))
    (htab : content.table = some t)
    (hhd : t.headers = some hs) (hhne : hs ≠ [])
    (hopt : content.options = some opts) (hone : opts ≠ [])
    (hrows : t.rows = some rows)
    (hcount : rows.length = opts.length)
    (hthresh : 3 * rows.length ≤
      4 * (rows.enum.countP (fun p => claimRowMatchB opts p.1 p.2))) :
    showTable content = false ∧
    ∀ qnum, create_question_slide content qnum =
      .ok (.question (addTextBox (questionFullText content qnum) false) none) := by
  have hht : hasTable content = true := by
    rcases hs with _ | ⟨h0, hs'⟩
    · exact absurd rfl hhne
    · simp [hasTable, htab, hhd]
  have hrne : rows ≠ [] := by
    intro he
    rw [he] at hcount
    exact hone (List.length_eq_zero.mp hcount.symm)
  have hmono : rows.enum.countP (fun p => claimRowMatchB opts p.1 p.2) ≤
      rows.enum.countP (fun p => rowMatch opts p.1 p.2) :=
    countP_mono_of_imp _ _ _ (fun x _ hx => claim_imp_rowMatch opts x.1 x.2 hx)
  have hiot : isOptionsTable opts t = true := by
    simp only [isOptionsTable, hrows, Option.getD_some]
    rw [if_pos ⟨hrne, hcount⟩]
    simp only [decide_eq_true_eq]
    unfold countMatches
    calc 3 * opts.length = 3 * rows.length := by rw [hcount]
      _ ≤ 4 * (rows.enum.countP (fun p => claimRowMatchB opts p.1 p.2)) := hthresh
      _ ≤ 4 * (rows.enum.countP (fun p => rowMatch opts p.1 p.2)) := by omega
  have hflag : isOptionsTableFlag content = true := by
    simp only [isOptionsTableFlag, hopt, Option.getD_some, htab]
    rw [if_pos ⟨hht, hone⟩]
    exact hiot
  have hshow : showTable content = false := by
    simp [showTable, hht, hflag]
  exact ⟨hshow, fun qnum => by simp [create_question_slide, hshow]⟩

/-- C1 counterexample: the claim's own example — first-column rows
`["(a)","(b)"]` against `options=["a) x","b) y"]` — is *not* suppressed:
`"(a)"` does not equal `"a) "` (the first three characters of the option),
so zero rows match, the table is shown and the built slide carries it. -/
theorem claim_C1_cex :
    showTable { options := some [pys "a) x", pys "b) y"],
                table := some { headers := some [some (pys "H1"), some (pys "H2")],
                                rows := some [[some (pys "(a)"), some (pys "x")],
                                              [some (pys "(b)"), some (pys "y")]] } }
      = true ∧
    (create_question_slide
        { options := some [pys "a) x", pys "b) y"],
          table := some { headers := some [some (pys "H1"), some (pys "H2")],
                          rows := some [[some (pys "(a)"), some (pys "x")],
                                        [some (pys "(b)"), some (pys "y")]] } }
        (pys "Q1")).map slideHasTable = .ok true := by
  exact ⟨rfl, rfl⟩

theorem claim_C1_witness :
    showTable { options := some [pys "(a) x", pys "(b) y"],
                table := some { headers := some [some (pys "L"), some (pys "V")],
                                rows := some [[some (pys "(a)"), some (pys "1")],
                                              [some (pys "(b)"), some (pys "2")]] } }
      = false := by
  have h := claim_C1_amended
    { options := some [pys "(a) x", pys "(b) y"],
      table := some { headers := some [some (pys "L"), some (pys "V")],
                      rows := some [[some (pys "(a)"), some (pys "1")],
                                    [some (pys "(b)"), some (pys "2")]] } }
    { headers := some [some (pys "L"), some (pys "V")],
      rows := some [[some (pys "(a)"), some (pys "1")],
                    [some (pys "(b)"), some (pys "2")]] }
    [some (pys "L"), some (pys "V")]
    [pys "(a) x", pys "(b) y"]
    [[some (pys "(a)"), some (pys "1")], [some (pys "(b)"), some (pys "2")]]
    rfl rfl (by decide) rfl (by decide) rfl (by decide) (by decide)
  exact h.1

lemma create_question_slide_shape (content : ContentBlock) (qnum : PyStr)
    (s : Slide) (h : create_question_slide content qnum = .ok s) :
    ∃ tf tb, s = .question tf tb := by
  unfold create_question_slide at h
  by_cases hst : showTable content = true
  · rw [if_pos hst] at h
    cases hat : addTable content.table with
    | error e => rw [hat] at h; exact absurd h (by simp)
    | ok rt =>
      rw [hat] at h
      simp only [Except.ok.injEq] at h
      exact ⟨_, _, h.symm⟩
  · rw [if_neg hst] at h
    simp only [Except.ok.injEq] at h
    exact ⟨_, _, h.symm⟩

lemma labeledAnswers_append (l1 : List PyStr) :
    ∀ (l2 : List PyStr) (c : Nat),
      labeledAnswers c (l1 ++ l2) =
        labeledAnswers c l1 ++ labeledAnswers (c + l1.length) l2 := by
  induction l1 with
  | nil => intro l2 c; simp [labeledAnswers]
  | cons t ts ih =>
    intro l2 c
    simp only [List.cons_append, labeledAnswers, List.length_cons,
      List.append_eq]
    rw [ih l2 (c + 1)]
    have harith : c + 1 + ts.length = c + (ts.length + 1) := by omega
    rw [harith]

lemma labeledAnswers_get : ∀ (ts : List PyStr) (c k : Nat),
    (labeledAnswers c ts).get? k =
      (ts.get? k).map
        (fun t => addTextBox (ansLabel (c + k) ++ pys ". " ++ t) false) := by
  intro ts
  induction ts with
  | nil => intro c k; simp [labeledAnswers]
  | cons t ts ih =>
    intro c k
    cases k with
    | zero => simp [labeledAnswers]
    | succ k =>
      simp only [labeledAnswers, List.get?_cons_succ, ih (c + 1) k]
      have harith : c + 1 + k = c + (k + 1) := by omega
      rw [harith]

lemma processSlide_spec (qnum : PyStr) (ia : Bool) (sd : SlideSpec) (c : Nat)
    (out1 : List Slide) (c1 : Nat)
    (h : processSlide qnum ia sd c = .ok (out1, c1)) :
    out1.map Slide.tag = (specTag ia sd).toList ∧
    out1.filterMap answerTF = labeledAnswers c ((specAnswerText ia sd).toList) ∧
    c1 = c + ((specAnswerText ia sd).toList).length := by
  unfold processSlide at h
  by_cases hp : sd.slide_type = some (pys "passage")
  · rw [if_pos hp] at h
    simp only [Except.ok.injEq, Prod.mk.injEq] at h
    obtain ⟨hout, hc⟩ := h
    subst hout hc
    refine ⟨?_, ?_, ?_⟩ <;>
      simp [specTag, specAnswerText, hp, create_passage_slide, Slide.tag,
        answerTF, labeledAnswers, (by decide : pys "passage" ≠ pys "answer")]
  · by_cases hq : sd.slide_type = some (pys "question")
    · rw [if_neg hp, if_pos hq] at h
      cases hcq : create_question_slide sd.content qnum with
      | error e => rw [hcq] at h; exact absurd h (by simp)
      | ok s =>
        rw [hcq] at h
        simp only [Except.ok.injEq, Prod.mk.injEq] at h
        obtain ⟨hout, hc⟩ := h
        subst hout hc
        obtain ⟨tf, tb, hsq⟩ := create_question_slide_shape _ _ _ hcq
        subst hsq
        refine ⟨?_, ?_, ?_⟩ <;>
          simp [specTag, specAnswerText, hp, hq, Slide.tag, answerTF,
            labeledAnswers, (by decide : pys "question" ≠ pys "answer"),
            (by decide : ¬ pys "question" = pys "passage")]
    · by_cases ha : sd.slide_type = some (pys "answer")
      · rw [if_neg hp, if_neg hq, if_pos ha] at h
        cases hia : ia
        · rw [hia] at h
          simp only [Bool.false_eq_true, if_false, Except.ok.injEq,
            Prod.mk.injEq] at h
          obtain ⟨hout, hc⟩ := h
          subst hout hc
          refine ⟨?_, ?_, ?_⟩ <;>
            simp [specTag, specAnswerText, hp, hq, ha, labeledAnswers,
              (by decide : ¬ pys "answer" = pys "passage"),
              (by decide : ¬ pys "answer" = pys "question")]
        · rw [hia] at h
          simp only [if_true, Except.ok.injEq, Prod.mk.injEq,
            create_answer_slide] at h
          obtain ⟨hout, hc⟩ := h
          subst hout hc
          refine ⟨?_, ?_, ?_⟩ <;>
            simp [specTag, specAnswerText, hp, hq, ha, Slide.tag, answerTF,
              labeledAnswers, create_answer_slide,
              (by decide : ¬ pys "answer" = pys "passage"),
              (by decide : ¬ pys "answer" = pys "question")]
      · rw [if_neg hp, if_neg hq, if_neg ha] at h
        simp only [Except.ok.injEq, Prod.mk.injEq] at h
        obtain ⟨hout, hc⟩ := h
        subst hout hc
        refine ⟨?_, ?_, ?_⟩ <;>
          simp [specTag, specAnswerText, hp, hq, ha, labeledAnswers]

lemma filterMap_cons_toList {α β : Type} (f : α → Option β) (a : α)
    (l : List α) :
    (a :: l).filterMap f = (f a).toList ++ l.filterMap f := by
  cases hfa : f a <;> simp [List.filterMap_cons, hfa]

lemma processSlides_spec (qnum : PyStr) (ia : Bool) :
    ∀ (specs : List SlideSpec) (c : Nat) (out : List Slide) (c' : Nat),
      processSlides qnum ia specs c = .ok (out, c') →
      out.map Slide.tag = specs.filterMap (specTag ia) ∧
      out.filterMap answerTF =
        labeledAnswers c (specs.filterMap (specAnswerText ia)) ∧
      c' = c + (specs.filterMap (specAnswerText ia)).length := by
  intro specs
  induction specs with
  | nil =>
    intro c out c' h
    simp only [processSlides, Except.ok.injEq, Prod.mk.injEq] at h
    obtain ⟨hout, hc⟩ := h
    subst hout hc
    simp [labeledAnswers]
  | cons sd rest ih =>
    intro c out c' h
    simp only [processSlides] at h
    cases hps : processSlide qnum ia sd c with
    | error e => rw [hps] at h; exact absurd h (by simp)
    | ok p =>
      obtain ⟨out1, c1⟩ := p
      rw [hps] at h
      dsimp only at h
      cases hrest : processSlides qnum ia rest c1 with
      | error e => rw [hrest] at h; exact absurd h (by simp)
      | ok pr =>
        obtain ⟨out2, c2⟩ := pr
        rw [hrest] at h
        dsimp only at h
        simp only [Except.ok.injEq, Prod.mk.injEq] at h
        obtain ⟨hout, hc⟩ := h
        subst hout hc
        obtain ⟨ht1, ha1, hc1⟩ := processSlide_spec qnum ia sd c out1 c1 hps
        obtain ⟨ht2, ha2, hc2⟩ := ih c1 out2 c2 hrest
        refine ⟨?_, ?_, ?_⟩
        · rw [List.map_append, ht1, ht2, filterMap_cons_toList]
        · rw [List.filterMap_append, ha1, ha2, hc1,
            filterMap_cons_toList (specAnswerText ia) sd rest,
            labeledAnswers_append]
        · rw [filterMap_cons_toList (specAnswerText ia) sd rest]
          simp only [List.length_append]
          omega

lemma generateFrom_spec (ia : Bool) :
    ∀ (records : List QuestionRecord) (c : Nat) (out : List Slide) (c' : Nat),
      generateFrom ia records c = .ok (out, c') →
      out.map Slide.tag =
        records.flatMap (fun r => r.slides.filterMap (specTag ia)) ∧
      out.filterMap answerTF = labeledAnswers c (answerTexts ia records) ∧
      c' = c + (answerTexts ia records).length := by
  intro records
  induction records with
  | nil =>
    intro c out c' h
    simp only [generateFrom, Except.ok.injEq, Prod.mk.injEq] at h
    obtain ⟨hout, hc⟩ := h
    subst hout hc
    simp [answerTexts, labeledAnswers]
  | cons q rest ih =>
    intro c out c' h
    simp only [generateFrom] at h
    cases hq : processSlides (q.question_number.getD (pys "Q?")) ia q.slides c with
    | error e => rw [hq] at h; exact absurd h (by simp)
    | ok p =>
      obtain ⟨out1, c1⟩ := p
      rw [hq] at h
      dsimp only at h
      cases hrest : generateFrom ia rest c1 with
      | error e => rw [hrest] at h; exact absurd h (by simp)
      | ok pr =>
        obtain ⟨out2, c2⟩ := pr
        rw [hrest] at h
        dsimp only at h
        simp only [Except.ok.injEq, Prod.mk.injEq] at h
        obtain ⟨hout, hc⟩ := h
        subst hout hc
        obtain ⟨ht1, ha1, hc1⟩ :=
          processSlides_spec (q.question_number.getD (pys "Q?")) ia
            q.slides c out1 c1 hq
        obtain ⟨ht2, ha2, hc2⟩ := ih c1 out2 c2 hrest
        have hat : answerTexts ia (q :: rest) =
            q.slides.filterMap (specAnswerText ia) ++ answerTexts ia rest := by
          simp [answerTexts]
        refine ⟨?_, ?_, ?_⟩
        · rw [List.map_append, ht1, ht2]
          simp [List.flatMap_cons]
        · rw [List.filterMap_append, ha1, ha2, hc1, hat, labeledAnswers_append]
        · rw [hat, List.length_append]
          omega

lemma answerTexts_false (records : List QuestionRecord) :
    answerTexts false records = [] := by
  induction records with
  | nil => simp [answerTexts]
  | cons q rest ih =>
    simp only [answerTexts, List.flatMap_cons] at ih ⊢
    rw [ih]
    have hq : q.slides.filterMap (specAnswerText false) = [] := by
      induction q.slides with
      | nil => simp
      | cons sd tl ihs =>
        simp only [List.filterMap_cons]
        have : specAnswerText false sd = none := by
          simp [specAnswerText]
        rw [this, ihs]
    rw [hq, List.nil_append]

/-- C4: in one generation run the answer counter starts at 1, the k-th
emitted answer slide is labeled `Ans<k>` (numbering advances by exactly one
per emitted answer slide, independent of the questions before it), and when
`include_answers` is false no answer slide is emitted and the counter never
moves. -/
theorem claim_C4 (records : List QuestionRecord) (ia : Bool) :
    (∀ (c : Nat) (out : List Slide) (c' : Nat),
      generateFrom ia records c = .ok (out, c') →
      out.filterMap answerTF = labeledAnswers c (answerTexts ia records) ∧
      c' = c + (answerTexts ia records).length ∧
      (ia = false → out.filterMap answerTF = [] ∧ c' = c)) ∧
    (∀ out : List Slide, pptxGenerate records ia = .ok out →
      ∀ k : Nat, (out.filterMap answerTF).get? k =
        ((answerTexts ia records).get? k).map
          (fun t => addTextBox (ansLabel (1 + k) ++ pys ". " ++ t) false)) := by
  constructor
  · intro c out c' h
    obtain ⟨_, ha, hc⟩ := generateFrom_spec ia records c out c' h
    refine ⟨ha, hc, ?_⟩
    intro hia
    subst hia
    have hz := answerTexts_false records
    rw [hz] at ha hc
    exact ⟨by rw [ha]; rfl, by rw [hc]; rfl⟩
  · intro out h k
    unfold pptxGenerate at h
    cases hg : generateFrom ia records 1 with
    | error e => rw [hg] at h; exact absurd h (by simp)
    | ok p =>
      obtain ⟨s, cend⟩ := p
      rw [hg] at h
      dsimp only at h
      simp only [Except.ok.injEq] at h
      subst h
      obtain ⟨_, ha, _⟩ := generateFrom_spec ia records 1 s cend hg
      rw [ha, labeledAnswers_get]

theorem claim_C4_witness :
    ([Slide.answer (addTextBox (pys "Ans1. first") false),
      Slide.answer (addTextBox (pys "Ans2. second") false)].filterMap answerTF) =
      labeledAnswers 1
        (answerTexts true
          [{ question_number := some (pys "Q1"),
             slides := [{ slide_type := some (pys "answer"),
                          content := { answer_text := some (pys "first") } }] },
           { question_number := some (pys "Q2"),
             slides := [{ slide_type := some (pys "answer"),
                          content := { answer_text := some (pys "second") } }] }]) ∧
    (3 : Nat) = 1 +
      (answerTexts true
        [{ question_number := some (pys "Q1"),
           slides := [{ slide_type := some (pys "answer"),
                        content := { answer_text := some (pys "first") } }] },
         { question_number := some (pys "Q2"),
           slides := [{ slide_type := some (pys "answer"),
                        content := { answer_text := some (pys "second") } }] }]).length := by
  have h := (claim_C4
    [{ question_number := some (pys "Q1"),
       slides := [{ slide_type := some (pys "answer"),
                    content := { answer_text := some (pys "first") } }] },
     { question_number := some (pys "Q2"),
       slides := [{ slide_type := some (pys "answer"),
                    content := { answer_text := some (pys "second") } }] }] true).1
    1
    [Slide.answer (addTextBox (pys "Ans1. first") false),
     Slide.answer (addTextBox (pys "Ans2. second") false)]
    3 rfl
  exact ⟨h.1, h.2.1⟩

/-- C5: the assembler emits slides in exactly the input order — records in
sequence, and within each record its `slides` in list order, each dispatched
to the builder matching its `slide_type` — and a record whose slides are
[passage, question, answer] with `include_answers = true` yields exactly the
3 slides passage, question, answer in that order. -/
theorem claim_C5 :
    (∀ (ia : Bool) (records : List QuestionRecord) (c : Nat)
        (out : List Slide) (c' : Nat),
      generateFrom ia records c = .ok (out, c') →
      out.map Slide.tag =
        records.flatMap (fun r => r.slides.filterMap (specTag ia))) ∧
    (pptxGenerate
        [{ question_number := some (pys "Q1"),
           slides := [
             { slide_type := some (pys "passage"),
               content := { passage := some (pys "P") } },
             { slide_type := some (pys "question"),
               content := { question_text := some (pys "What is 2+2?") } },
             { slide_type := some (pys "answer"),
               content := { answer_text := some (pys "4") } }] }] true).map
      (List.map Slide.tag) =
      .ok [SlideTag.passage, SlideTag.question, SlideTag.answer] := by
  constructor
  · intro ia records c out c' h
    exact (generateFrom_spec ia records c out c' h).1
  · rfl

theorem claim_C5_witness :
    ([Slide.passage (addTextBox (pys "A") false),
      Slide.passage (addTextBox (pys "B") false)].map Slide.tag) =
      ([{ question_number := some (pys "Q1"),
          slides := [{ slide_type := some (pys "passage"),
                       content := { passage := some (pys "A") } }] },
        { question_number := some (pys "Q2"),
          slides := [{ slide_type := some (pys "passage"),
                       content := { passage := some (pys "B") } }] }] :
        List QuestionRecord).flatMap
        (fun r => r.slides.filterMap (specTag true)) := by
  exact claim_C5.1 true
    [{ question_number := some (pys "Q1"),
       slides := [{ slide_type := some (pys "passage"),
                    content := { passage := some (pys "A") } }] },
     { question_number := some (pys "Q2"),
       slides := [{ slide_type := some (pys "passage"),
                    content := { passage := some (pys "B") } }] }]
    1
    [Slide.passage (addTextBox (pys "A") false),
     Slide.passage (addTextBox (pys "B") false)]
    1 rfl

/-- C9: the answer counter is set to 1 only at construction and `generate`
never resets it — after a first run on a fresh instance the counter stands
at 1 + (answers emitted), and a second `generate` call on the same instance
appends its slides to the same in-progress presentation with answer
numbering continuing from the first run's end rather than restarting. -/
theorem claim_C9 (ia : Bool) (qs1 qs2 : List QuestionRecord)
    (st1 st2 : GenState)
    (h1 : generateMethod initialState qs1 ia = .ok st1)
    (h2 : generateMethod st1 qs2 ia = .ok st2) :
    st1.counter = 1 + (answerTexts ia qs1).length ∧
    (∃ newSlides, st2.slides = st1.slides ++ newSlides ∧
       newSlides.filterMap answerTF =
         labeledAnswers st1.counter (answerTexts ia qs2)) ∧
    st2.counter = st1.counter + (answerTexts ia qs2).length := by
  unfold generateMethod at h1 h2
  cases hg1 : generateFrom ia qs1 initialState.counter with
  | error e => rw [hg1] at h1; exact absurd h1 (by simp)
  | ok p1 =>
    obtain ⟨s1, c1⟩ := p1
    rw [hg1] at h1
    dsimp only at h1
    simp only [Except.ok.injEq] at h1
    obtain ⟨_, ha1, hc1⟩ :=
      generateFrom_spec ia qs1 initialState.counter s1 c1 hg1
    subst h1
    cases hg2 : generateFrom ia qs2 c1 with
    | error e =>
      rw [show (⟨initialState.slides ++ s1, c1⟩ : GenState).counter = c1 from rfl,
        hg2] at h2
      exact absurd h2 (by simp)
    | ok p2 =>
      obtain ⟨s2, c2⟩ := p2
      rw [show (⟨initialState.slides ++ s1, c1⟩ : GenState).counter = c1 from rfl,
        hg2] at h2
      dsimp only at h2
      simp only [Except.ok.injEq] at h2
      obtain ⟨_, ha2, hc2⟩ := generateFrom_spec ia qs2 c1 s2 c2 hg2
      subst h2
      refine ⟨?_, ⟨s2, rfl, ?_⟩, ?_⟩
      · exact hc1
      · exact ha2
      · exact hc2

theorem claim_C9_witness :
    ((⟨[Slide.answer (addTextBox (pys "Ans1. a") false)], 2⟩ :
        GenState).counter = 1 +
      (answerTexts true
        [{ question_number := some (pys "Q1"),
           slides := [{ slide_type := some (pys "answer"),
                        content := { answer_text := some (pys "a") } }] }]).length) ∧
    (∃ newSlides,
      (⟨[Slide.answer (addTextBox (pys "Ans1. a") false),
         Slide.answer (addTextBox (pys "Ans2. b") false)], 3⟩ :
          GenState).slides =
        (⟨[Slide.answer (addTextBox (pys "Ans1. a") false)], 2⟩ :
          GenState).slides ++ newSlides ∧
      newSlides.filterMap answerTF =
        labeledAnswers
          (⟨[Slide.answer (addTextBox (pys "Ans1. a") false)], 2⟩ :
            GenState).counter
          (answerTexts true
            [{ question_number := some (pys "Q2"),
               slides := [{ slide_type := some (pys "answer"),
                            content := { answer_text := some (pys "b") } }] }])) ∧
    (⟨[Slide.answer (addTextBox (pys "Ans1. a") false),
       Slide.answer (addTextBox (pys "Ans2. b") false)], 3⟩ :
        GenState).counter =
      (⟨[Slide.answer (addTextBox (pys "Ans1. a") false)], 2⟩ :
        GenState).counter +
      (answerTexts true
        [{ question_number := some (pys "Q2"),
           slides := [{ slide_type := some (pys "answer"),
                        content := { answer_text := some (pys "b") } }] }]).length :=
  claim_C9 true
    [{ question_number := some (pys "Q1"),
       slides := [{ slide_type := some (pys "answer"),
                    content := { answer_text := some (pys "a") } }] }]
    [{ question_number := some (pys "Q2"),
       slides := [{ slide_type := some (pys "answer"),
                    content := { answer_text := some (pys "b") } }] }]
    ⟨[Slide.answer (addTextBox (pys "Ans1. a") false)], 2⟩
    ⟨[Slide.answer (addTextBox (pys "Ans1. a") false),
      Slide.answer (addTextBox (pys "Ans2. b") false)], 3⟩
    rfl rfl

/-- C10: a slide spec whose `slide_type` is missing or not one of
passage/question/answer is silently dropped: no slide is emitted, no error
is raised, the answer counter is unchanged, and removing the spec from a
record leaves the generated output identical. -/
theorem claim_C10 (sd : SlideSpec) (hk : knownSlideType sd.slide_type = false) :
    (∀ (qnum : PyStr) (ia : Bool) (c : Nat),
      processSlide qnum ia sd c = .ok ([], c)) ∧
    (∀ (n : Option PyStr) (ia : Bool) (xs ys : List SlideSpec) (c : Nat),
      generateFrom ia [{ question_number := n, slides := xs ++ sd :: ys }] c =
        generateFrom ia [{ question_number := n, slides := xs ++ ys }] c) := by
  have hp : ¬ sd.slide_type = some (pys "passage") := by
    intro he
    rw [knownSlideType, he] at hk
    simp at hk
  have hq : ¬ sd.slide_type = some (pys "question") := by
    intro he
    rw [knownSlideType, he] at hk
    simp at hk
  have ha : ¬ sd.slide_type = some (pys "answer") := by
    intro he
    rw [knownSlideType, he] at hk
    simp at hk
  have hps : ∀ (qnum : PyStr) (ia : Bool) (c : Nat),
      processSlide qnum ia sd c = .ok ([], c) := by
    intro qnum ia c
    unfold processSlide
    rw [if_neg hp, if_neg hq, if_neg ha]
  refine ⟨hps, ?_⟩
  intro n ia xs ys c
  have hinner : ∀ (qnum : PyStr) (xs : List SlideSpec) (c : Nat),
      processSlides qnum ia (xs ++ sd :: ys) c =
        processSlides qnum ia (xs ++ ys) c := by
    intro qnum xs
    induction xs with
    | nil =>
      intro c
      simp only [List.nil_append, processSlides, hps]
      cases hys : processSlides qnum ia ys c <;> simp
    | cons x xt ih =>
      intro c
      simp only [List.cons_append, processSlides]
      cases hx : processSlide qnum ia x c with
      | error e => rfl
      | ok p =>
        obtain ⟨o1, c1⟩ := p
        dsimp only
        simp only [List.append_eq]
        rw [ih c1]
  unfold generateFrom
  rw [hinner]

theorem claim_C10_witness :
    processSlide (pys "Q1") true { slide_type := some (pys "title") } 5 =
      .ok ([], 5) ∧
    generateFrom true
        [{ question_number := some (pys "Q1"),
           slides := [({ slide_type := some (pys "passage"),
                         content := { passage := some (pys "P") } } : SlideSpec)] ++
             ({ slide_type := some (pys "title") } : SlideSpec) :: [] }] 1 =
      generateFrom true
        [{ question_number := some (pys "Q1"),
           slides := [({ slide_type := some (pys "passage"),
                         content := { passage := some (pys "P") } } : SlideSpec)] ++
             [] }] 1 := by
  have h := claim_C10 { slide_type := some (pys "title") } (by decide)
  exact ⟨h.1 (pys "Q1") true 5,
    h.2 (some (pys "Q1")) true
      [{ slide_type := some (pys "passage"),
         content := { passage := some (pys "P") } }] [] 1⟩
